import Mathlib

/-!
Verification of the redis-to-eventhubs connector core against its design notes.

The development shallowly embeds the relevant JavaScript source files:

* `src/services/EventHubsService.js` (multi-batch variant): `EventHubsService.sendBatch`
  builds capacity-bounded batches with `tryAdd`, skips permanently oversized events,
  and transmits the queued batches in order, re-throwing on a transport failure.
* `src/services/LocalEventHubService.js`: `LocalEventHubService.sendBatch` attempts an
  independent file write per event (each write has its own error handler returning
  null) and returns the count of non-null results.
* `src/services/RedisService.js`: `initializeGroup` (XGROUP CREATE with BUSYGROUP
  absorption), `claimPendingMessages` (XPENDING scan of at most 100 entries, idle-time
  filter, XCLAIM), `ackMessages` (XACK, early 0 on empty id list).
* `src/StreamConnector.js` (variant with the inner send try/catch and the periodic
  pending-claim interval): one iteration of `processingLoop`, and the `stop` transition.

Effects are made explicit: the fallible transport operations become `Except` values or
boolean success oracles indexed by call position, and the mutable connector state
becomes an explicit record threaded through the transition functions.
-/

namespace RedisToEventHubs

/-! ## Model of src/services/EventHubsService.js (batching remote sink) -/

/-- An event handed to a sink: the normalized body, the originating stream id, and the
encoded size used by the transport's batch capacity test. -/
structure EHEvent where
  body : List (String × Option String)
  correlationId : String
  size : Nat
deriving DecidableEq

/-- A transport batch: the ordered events it logically contains. -/
structure EHBatch where
  events : List EHEvent
deriving DecidableEq

/-- Number of events in the batch (the `count` property of the transport batch). -/
def EHBatch.count (b : EHBatch) : Nat := b.events.length

/-- Total encoded size of the batch contents. -/
def EHBatch.totalSize (b : EHBatch) : Nat := (b.events.map EHEvent.size).sum

/-- Model of the transport's `tryAdd`: the event is included exactly when it fits the
remaining capacity; otherwise the batch is unchanged and the call reports failure. -/
def EHBatch.tryAdd (maxSize : Nat) (b : EHBatch) (e : EHEvent) : Option EHBatch :=
  if b.totalSize + e.size ≤ maxSize then some ⟨b.events ++ [e]⟩ else none

/-- The batching phase of `EventHubsService.sendBatch` (the for-loop over `events` plus
the trailing push): returns the queued batches, `addedCount`, and `failedEvents` (the
correlation ids of events that did not fit an empty batch), processing events in input
order with the current batch `cur`. On a failed add with a non-empty current batch the
batch is closed and a fresh one is opened for the retry; on a failed retry the event is
recorded as failed and the loop continues. -/
def buildBatches (maxSize : Nat) : List EHEvent → EHBatch → List EHBatch × Nat × List String
  | [], cur => (if 0 < cur.count then [cur] else [], 0, [])
  | e :: rest, cur =>
    match cur.tryAdd maxSize e with
    | some cur' =>
      let r := buildBatches maxSize rest cur'
      (r.1, r.2.1 + 1, r.2.2)
    | none =>
      if 0 < cur.count then
        match EHBatch.tryAdd maxSize ⟨[]⟩ e with
        | some cur' =>
          let r := buildBatches maxSize rest cur'
          (cur :: r.1, r.2.1 + 1, r.2.2)
        | none =>
          let r := buildBatches maxSize rest ⟨[]⟩
          (cur :: r.1, r.2.1, e.correlationId :: r.2.2)
      else
        match cur.tryAdd maxSize e with
        | some cur' =>
          let r := buildBatches maxSize rest cur'
          (r.1, r.2.1 + 1, r.2.2)
        | none =>
          let r := buildBatches maxSize rest cur
          (r.1, r.2.1, e.correlationId :: r.2.2)

/-- The transmission phase: send queued batches in order starting at call index `i`;
`sendOk i` tells whether the i-th transport send succeeds. A failed send aborts the
remaining batches (the error is re-thrown); the first component collects the batches
actually transmitted and the second is `true` when no send failed. -/
def transmitFrom (sendOk : Nat → Bool) : List EHBatch → Nat → List EHBatch × Bool
  | [], _ => ([], true)
  | b :: rest, i =>
    if sendOk i then
      let r := transmitFrom sendOk rest (i + 1)
      (b :: r.1, r.2)
    else ([], false)

/-- Observable outcome of one `EventHubsService.sendBatch` call: the batches that were
transmitted, the returned count or the propagated transport error, and the correlation
ids recorded as permanently oversized. -/
structure SendOutcome where
  transmitted : List EHBatch
  result : Except Unit Nat
  failedIds : List String

/-- Model of `EventHubsService.sendBatch`: early 0 on an empty input, otherwise build
the batches, transmit them in order, and return `addedCount` unless a transport send
failed, in which case the error propagates and no count is returned. -/
def EventHubsService.sendBatch (maxSize : Nat) (sendOk : Nat → Bool)
    (events : List EHEvent) : SendOutcome :=
  if events.length = 0 then ⟨[], Except.ok 0, []⟩
  else
    let b := buildBatches maxSize events ⟨[]⟩
    let t := transmitFrom sendOk b.1 0
    ⟨t.1, if t.2 then Except.ok b.2.1 else Except.error (), b.2.2⟩

/-! ## Model of src/services/LocalEventHubService.js (direct file sink) -/

/-- An event handed to the file sink. -/
structure FileEvent where
  body : List (String × Option String)
  correlationId : String
deriving DecidableEq

/-- Observable outcome of one `LocalEventHubService.sendBatch` call: correlation ids of
the events whose write was attempted, the returned success count, and whether the call
raised. -/
structure FileSinkOutcome where
  attemptedIds : List String
  written : Nat
  raised : Bool
deriving DecidableEq

/-- Model of `LocalEventHubService.sendBatch`: early 0 on an empty input; otherwise one
write is attempted per event (`writeOk i` tells whether the i-th write succeeds; a
failed write is caught and mapped to `none`, mirroring the per-promise catch returning
null), and the call returns the number of non-`none` results without raising. -/
def LocalEventHubService.sendBatch (writeOk : Nat → Bool)
    (events : List FileEvent) : FileSinkOutcome :=
  if events.length = 0 then ⟨[], 0, false⟩
  else
    let results := (List.range events.length).map fun i =>
      if writeOk i then some () else none
    ⟨events.map FileEvent.correlationId, (results.filter Option.isSome).length, false⟩

/-! ## Model of src/services/RedisService.js -/

/-- JavaScript `String.prototype.startsWith` on character lists. -/
def startsWithCh : List Char → List Char → Bool
  | [], _ => true
  | _ :: _, [] => false
  | a :: as, b :: bs => a == b && startsWithCh as bs

/-- JavaScript `String.prototype.includes` on character lists: the needle occurs at
some position of the haystack. -/
def includesCh (needle : List Char) : List Char → Bool
  | [] => needle.isEmpty
  | b :: bs => startsWithCh needle (b :: bs) || includesCh needle bs

/-- JavaScript `s.includes(searchString)`. -/
def String.includes (s searchString : String) : Bool :=
  includesCh searchString.toList s.toList

/-- The error message Redis returns from `XGROUP CREATE` when the group exists. -/
def busygroupMessage : String := "BUSYGROUP Consumer Group name already exists"

/-- Model of `XGROUP CREATE streamKey groupName $ MKSTREAM` against an explicit set of
existing groups: fails with the BUSYGROUP message when the group exists, otherwise
records the group and succeeds. -/
def xgroupCreate (groups : List (String × String)) (streamKey groupName : String) :
    List (String × String) × Except String Unit :=
  if (streamKey, groupName) ∈ groups then (groups, Except.error busygroupMessage)
  else ((streamKey, groupName) :: groups, Except.ok ())

/-- The catch block of `RedisService.initializeGroup`: a create error whose message
includes BUSYGROUP is absorbed (the call succeeds silently); any other error is
re-thrown. -/
def RedisService.handleCreateError (createResult : Except String Unit) :
    Except String Unit :=
  match createResult with
  | Except.ok _ => Except.ok ()
  | Except.error msg =>
    if String.includes msg "BUSYGROUP" then Except.ok () else Except.error msg

/-- Model of `RedisService.initializeGroup`: run the create and absorb only the
BUSYGROUP failure. -/
def RedisService.initializeGroup (groups : List (String × String))
    (streamKey groupName : String) : List (String × String) × Except String Unit :=
  let r := xgroupCreate groups streamKey groupName
  (r.1, RedisService.handleCreateError r.2)

/-- A pending-entries-list entry as returned by `XPENDING`: entry id, current consumer,
and idle time in milliseconds. -/
structure PendingEntry where
  id : String
  consumer : String
  idleMs : Nat
deriving DecidableEq

/-- Model of `RedisService.claimPendingMessages`: `XPENDING - + 100` returns at most the
first 100 entries of the group's pending set; entries with idle time at least
`minIdleTimeMs` are selected and claimed with `XCLAIM`. Returns the claimed ids and the
claimed count; both early returns yield no claim. -/
def RedisService.claimPendingMessages (pending : List PendingEntry)
    (minIdleTimeMs : Nat) : List String × Nat :=
  let pendingInfo := pending.take 100
  if pendingInfo.length = 0 then ([], 0)
  else
    let messageIdsToClaim :=
      (pendingInfo.filter fun p => minIdleTimeMs ≤ p.idleMs).map PendingEntry.id
    if messageIdsToClaim.length = 0 then ([], 0)
    else (messageIdsToClaim, messageIdsToClaim.length)

/-- Model of `RedisService.ackMessages` over an explicit pending-id set: an empty id
list is a no-op returning 0; otherwise `XACK` removes the given ids from the pending
set and returns how many of them were actually pending. -/
def RedisService.ackMessages (pending : List String) (messageIds : List String) :
    List String × Nat :=
  if messageIds.length = 0 then (pending, 0)
  else
    (pending.filter fun p => ¬ p ∈ messageIds,
     (messageIds.filter fun i => i ∈ pending).length)

/-! ## Model of src/StreamConnector.js -/

/-- A raw stream record: id and the flat alternating field/value list. -/
structure StreamMessage where
  id : String
  fields : List String
deriving DecidableEq

/-- The body-building loop of the connector: `body[fields[i]] = fields[i+1]` for even
`i`; a trailing key with no value maps to the undefined value (`none`). -/
def pairFields : List String → List (String × Option String)
  | [] => []
  | [k] => [(k, none)]
  | k :: v :: rest => (k, some v) :: pairFields rest

/-- The record-to-event transformation of the processing loop. -/
def toEvents (messages : List StreamMessage) : List EHEvent :=
  messages.map fun msg => ⟨pairFields msg.fields, msg.id, 0⟩

/-- Observable outcome of one processing-loop iteration: the ids passed to
`ackMessages`, and whether the iteration slept `retryDelayMs` before the next one. -/
structure IterResult where
  ackedIds : List String
  sleptRetryDelay : Bool
deriving DecidableEq

/-- Model of one iteration of `StreamConnector.processingLoop` (the variant with the
inner try/catch around the send): a fetch failure hits the outer catch, which sleeps
`retryDelayMs`; an empty fetch continues immediately; a send error or a zero
`sentCount` (which throws `MessageProcessingError`) is caught by the inner catch, which
only logs — nothing is acknowledged and no retry delay is slept; otherwise the first
`sentCount` fetched ids are acknowledged. -/
def StreamConnector.processIteration (fetchResult : Except String (List StreamMessage))
    (sinkResult : Except String Nat) : IterResult :=
  match fetchResult with
  | Except.error _ => ⟨[], true⟩
  | Except.ok messages =>
    if messages.length = 0 then ⟨[], false⟩
    else
      match sinkResult with
      | Except.error _ => ⟨[], false⟩
      | Except.ok sentCount =>
        if sentCount = 0 then ⟨[], false⟩
        else ⟨(messages.take sentCount).map StreamMessage.id, false⟩

/-- Connector state relevant to start/stop: the running flag and the pending-claim
interval handle, plus ghost event counters recording how many times the interval was
cancelled and each collaborator disconnected. -/
structure RelayState where
  isRunning : Bool
  pendingClaimInterval : Option Nat
  timersCancelled : Nat
  redisDisconnects : Nat
  outputDisconnects : Nat
deriving DecidableEq

/-- The state effect of `StreamConnector.start`: sets the running flag and installs the
pending-claim interval handle. -/
def StreamConnector.startState (s : RelayState) (timerId : Nat) : RelayState :=
  { s with isRunning := true, pendingClaimInterval := some timerId }

/-- Model of `StreamConnector.stop`: returns immediately when not running; otherwise
clears the running flag, cancels the pending-claim interval if present, and disconnects
the Redis service and the output service once each. -/
def StreamConnector.stop (s : RelayState) : RelayState :=
  if s.isRunning = false then s
  else
    let s1 := { s with isRunning := false }
    let s2 :=
      match s1.pendingClaimInterval with
      | some _ =>
        { s1 with pendingClaimInterval := none, timersCancelled := s1.timersCancelled + 1 }
      | none => s1
    { s2 with redisDisconnects := s2.redisDisconnects + 1,
              outputDisconnects := s2.outputDisconnects + 1 }

/-! ## Shared helper lemmas -/

/-- The BUSYGROUP reply of Redis is recognized by the catch block's message test. -/
lemma busygroup_message_includes : String.includes busygroupMessage "BUSYGROUP" = true := by
  decide

/-- A successful `tryAdd` means the event fit and was appended to the batch. -/
lemma tryAdd_some {maxSize : Nat} {b b' : EHBatch} {e : EHEvent}
    (h : b.tryAdd maxSize e = some b') :
    b.totalSize + e.size ≤ maxSize ∧ b'.events = b.events ++ [e] := by
  unfold EHBatch.tryAdd at h
  split at h
  · exact ⟨by assumption, by cases h; rfl⟩
  · cases h

/-- A failed `tryAdd` means the event did not fit the batch's remaining capacity. -/
lemma tryAdd_none {maxSize : Nat} {b : EHBatch} {e : EHEvent} :
    b.tryAdd maxSize e = none ↔ ¬ b.totalSize + e.size ≤ maxSize := by
  unfold EHBatch.tryAdd
  split <;> simp [*]

/-! ## C10 -/

/-- C10: for the empty input list, `sendBatch` of both sink variants returns 0 without
transmitting any batch, recording any failed event, attempting any write, or raising. -/
theorem C10_empty_input_noop (maxSize : Nat) (sendOk writeOk : Nat → Bool) :
    EventHubsService.sendBatch maxSize sendOk [] = ⟨[], Except.ok 0, []⟩ ∧
    LocalEventHubService.sendBatch writeOk [] = ⟨[], 0, false⟩ :=
  ⟨rfl, rfl⟩

/-! ## C9 -/

/-- C9: `stop` after `start` cancels the pending-claim interval and disconnects each
collaborator exactly once, and every further `stop` call on the stopped state is a
no-op leaving the state unchanged. -/
theorem C9_stop_idempotent (s0 : RelayState) (timerId : Nat) :
    StreamConnector.stop (StreamConnector.stop (StreamConnector.startState s0 timerId)) =
      StreamConnector.stop (StreamConnector.startState s0 timerId) ∧
    (StreamConnector.stop (StreamConnector.startState s0 timerId)).timersCancelled =
      s0.timersCancelled + 1 ∧
    (StreamConnector.stop (StreamConnector.startState s0 timerId)).redisDisconnects =
      s0.redisDisconnects + 1 ∧
    (StreamConnector.stop (StreamConnector.startState s0 timerId)).outputDisconnects =
      s0.outputDisconnects + 1 ∧
    ∀ s : RelayState, s.isRunning = false → StreamConnector.stop s = s := by
  refine ⟨?_, ?_, ?_, ?_, ?_⟩
  · simp [StreamConnector.stop, StreamConnector.startState]
  · simp [StreamConnector.stop, StreamConnector.startState]
  · simp [StreamConnector.stop, StreamConnector.startState]
  · simp [StreamConnector.stop, StreamConnector.startState]
  · intro s hs
    simp [StreamConnector.stop, hs]

/-! ## C8 -/

/-- C8: a second `initializeGroup` on the same `(streamKey, groupName)` never fails —
the BUSYGROUP error of the underlying create is absorbed — while a create failure whose
message does not include BUSYGROUP propagates to the caller. -/
theorem C8_idempotent_group_create (groups : List (String × String))
    (streamKey groupName msg : String)
    (hmsg : String.includes msg "BUSYGROUP" = false) :
    (RedisService.initializeGroup
        (RedisService.initializeGroup groups streamKey groupName).1 streamKey groupName).2 =
      Except.ok () ∧
    RedisService.handleCreateError (Except.error msg) = Except.error msg := by
  constructor
  · by_cases h : (streamKey, groupName) ∈ groups
    · simp [RedisService.initializeGroup, xgroupCreate, h, RedisService.handleCreateError,
        busygroup_message_includes]
    · simp [RedisService.initializeGroup, xgroupCreate, h, RedisService.handleCreateError,
        busygroup_message_includes]
  · simp [RedisService.handleCreateError, hmsg]

/-- Witness for C8 at a concrete group table, key pair, and non-BUSYGROUP error. -/
theorem C8_idempotent_group_create_witness :
    (RedisService.initializeGroup
        (RedisService.initializeGroup [] "events-stream" "eventhub-group").1
        "events-stream" "eventhub-group").2 = Except.ok () ∧
    RedisService.handleCreateError (Except.error "ERR wrong number of arguments") =
      Except.error "ERR wrong number of arguments" :=
  C8_idempotent_group_create [] "events-stream" "eventhub-group"
    "ERR wrong number of arguments" (by decide)

/-! ## C7 -/

/-- C7: the file sink attempts one write per event regardless of any other write's
outcome, never raises, and returns exactly the number of writes that succeeded. -/
theorem C7_independent_writes (writeOk : Nat → Bool) (events : List FileEvent)
    (h : events ≠ []) :
    (LocalEventHubService.sendBatch writeOk events).attemptedIds =
      events.map FileEvent.correlationId ∧
    (LocalEventHubService.sendBatch writeOk events).raised = false ∧
    (LocalEventHubService.sendBatch writeOk events).written =
      ((List.range events.length).filter writeOk).length := by
  have hlen : ¬ events.length = 0 := fun hc => h (List.length_eq_zero.mp hc)
  refine ⟨?_, ?_, ?_⟩
  · simp [LocalEventHubService.sendBatch, hlen]
  · simp [LocalEventHubService.sendBatch, hlen]
  · simp only [LocalEventHubService.sendBatch, if_neg hlen]
    have hpred : (fun i => Option.isSome (if writeOk i then some () else none)) = writeOk := by
      funext i
      cases hw : writeOk i <;> simp [hw]
    rw [List.filter_map, List.length_map]
    simp only [Function.comp_def, hpred]

/-- Witness for C7 at a concrete two-event input where the second write fails. -/
theorem C7_independent_writes_witness :
    (LocalEventHubService.sendBatch (fun i => decide (i = 0))
        [⟨[("k", some "1")], "1-0"⟩, ⟨[("k", some "2")], "2-0"⟩]).attemptedIds =
      [⟨[("k", some "1")], "1-0"⟩, ⟨[("k", some "2")], "2-0"⟩].map FileEvent.correlationId ∧
    (LocalEventHubService.sendBatch (fun i => decide (i = 0))
        [⟨[("k", some "1")], "1-0"⟩, ⟨[("k", some "2")], "2-0"⟩]).raised = false ∧
    (LocalEventHubService.sendBatch (fun i => decide (i = 0))
        [⟨[("k", some "1")], "1-0"⟩, ⟨[("k", some "2")], "2-0"⟩]).written =
      ((List.range ([⟨[("k", some "1")], "1-0"⟩,
          (⟨[("k", some "2")], "2-0"⟩ : FileEvent)].length)).filter (fun i => decide (i = 0))).length :=
  C7_independent_writes (fun i => decide (i = 0))
    [⟨[("k", some "1")], "1-0"⟩, ⟨[("k", some "2")], "2-0"⟩] (by simp)

/-! ## C4 (corrected) -/

/-- C4 counterexample: in an iteration whose send raises, the connector does not sleep
`retryDelayMs` — the inner catch only logs, so the claimed conjunction (no ack and a
retry-delay sleep) is false at this concrete iteration. -/
theorem C4_counterexample :
    ¬ ((StreamConnector.processIteration (Except.ok [⟨"1-0", ["k", "v"]⟩])
          (Except.error "send failed")).ackedIds = [] ∧
       (StreamConnector.processIteration (Except.ok [⟨"1-0", ["k", "v"]⟩])
          (Except.error "send failed")).sleptRetryDelay = true) := by
  decide

/-- C4 amended: when `sendBatch` raises, the iteration acknowledges nothing and moves
to the next loop iteration without sleeping `retryDelayMs` (the retry delay is applied
only by the outer catch, e.g. on fetch failures). -/
theorem C4_no_ack_no_retry_sleep (messages : List StreamMessage) (err : String)
    (h : messages ≠ []) :
    StreamConnector.processIteration (Except.ok messages) (Except.error err) =
      ⟨[], false⟩ := by
  have hlen : ¬ messages.length = 0 := fun hc => h (List.length_eq_zero.mp hc)
  simp [StreamConnector.processIteration, hlen]

/-- Witness for the amended C4 at a concrete one-message fetch and send error. -/
theorem C4_no_ack_no_retry_sleep_witness :
    StreamConnector.processIteration (Except.ok [⟨"1-0", ["k", "v"]⟩])
        (Except.error "send failed") = ⟨[], false⟩ :=
  C4_no_ack_no_retry_sleep [⟨"1-0", ["k", "v"]⟩] "send failed" (by simp)

/-! ## C1 -/

/-- C1: when the sink reports `sentCount = k` with `0 < k ≤ n`, the iteration
acknowledges exactly the ids of the first k fetched records in fetch order, and every
later fetched record is not acknowledged and stays in the pending set after the ack. -/
theorem C1_ack_exactly_first_k (messages : List StreamMessage) (k : Nat)
    (pending : List String) (hk : 0 < k) (hkn : k ≤ messages.length)
    (hnd : (messages.map StreamMessage.id).Nodup)
    (hp : ∀ m ∈ messages, m.id ∈ pending) :
    (StreamConnector.processIteration (Except.ok messages) (Except.ok k)).ackedIds =
      (messages.take k).map StreamMessage.id ∧
    ∀ m ∈ messages.drop k,
      m.id ∉ (StreamConnector.processIteration (Except.ok messages) (Except.ok k)).ackedIds ∧
      m.id ∈ (RedisService.ackMessages pending
        (StreamConnector.processIteration (Except.ok messages) (Except.ok k)).ackedIds).1 := by
  have hlen : ¬ messages.length = 0 := by omega
  have hk0 : ¬ k = 0 := by omega
  have hack : (StreamConnector.processIteration (Except.ok messages) (Except.ok k)).ackedIds =
      (messages.take k).map StreamMessage.id := by
    simp [StreamConnector.processIteration, hlen, hk0]
  refine ⟨hack, ?_⟩
  intro m hm
  have hmem : m ∈ messages := List.drop_subset _ _ hm
  have hnot : m.id ∉ (messages.take k).map StreamMessage.id := by
    have hsplit : messages.map StreamMessage.id =
        (messages.take k).map StreamMessage.id ++ (messages.drop k).map StreamMessage.id := by
      rw [← List.map_append, List.take_append_drop]
    rw [hsplit] at hnd
    rcases List.nodup_append.mp hnd with ⟨-, -, hdisj⟩
    intro hin
    exact hdisj hin (List.mem_map_of_mem _ hm)
  rw [hack]
  refine ⟨hnot, ?_⟩
  have hids_len : ¬ ((messages.take k).map StreamMessage.id).length = 0 := by
    simp only [List.length_map, List.length_take]
    omega
  rw [RedisService.ackMessages, if_neg hids_len]
  simp only [List.mem_filter, decide_not]
  refine ⟨hp m hmem, ?_⟩
  simpa using hnot

/-- Witness for C1 at a concrete two-message fetch with `sentCount = 1`. -/
theorem C1_ack_exactly_first_k_witness :
    (StreamConnector.processIteration
        (Except.ok [⟨"1-0", ["a", "1"]⟩, ⟨"2-0", ["b", "2"]⟩]) (Except.ok 1)).ackedIds =
      ([⟨"1-0", ["a", "1"]⟩, (⟨"2-0", ["b", "2"]⟩ : StreamMessage)].take 1).map
        StreamMessage.id ∧
    ∀ m ∈ [⟨"1-0", ["a", "1"]⟩, (⟨"2-0", ["b", "2"]⟩ : StreamMessage)].drop 1,
      m.id ∉ (StreamConnector.processIteration
        (Except.ok [⟨"1-0", ["a", "1"]⟩, ⟨"2-0", ["b", "2"]⟩]) (Except.ok 1)).ackedIds ∧
      m.id ∈ (RedisService.ackMessages ["1-0", "2-0"]
        (StreamConnector.processIteration
          (Except.ok [⟨"1-0", ["a", "1"]⟩, ⟨"2-0", ["b", "2"]⟩]) (Except.ok 1)).ackedIds).1 :=
  C1_ack_exactly_first_k [⟨"1-0", ["a", "1"]⟩, ⟨"2-0", ["b", "2"]⟩] 1 ["1-0", "2-0"]
    (by decide) (by decide) (by decide) (by decide)

/-! ## Batching lemmas for the remote sink -/

/-- Batching phase, general shape: the queued batches contain, after the current
batch's contents, exactly the input events that fit an empty batch, in input order;
`addedCount` counts them; and the failed ids are exactly the correlation ids of the
events that do not fit an empty batch, in input order. -/
lemma buildBatches_spec (maxSize : Nat) :
    ∀ (evs : List EHEvent) (cur : EHBatch),
      ((buildBatches maxSize evs cur).1.map EHBatch.events).flatten =
        cur.events ++ evs.filter (fun e => e.size ≤ maxSize) ∧
      (buildBatches maxSize evs cur).2.1 = (evs.filter (fun e => e.size ≤ maxSize)).length ∧
      (buildBatches maxSize evs cur).2.2 =
        (evs.filter (fun e => ¬ e.size ≤ maxSize)).map EHEvent.correlationId := by
  intro evs
  induction evs with
  | nil =>
    intro cur
    by_cases h : 0 < cur.count
    · simp [buildBatches, h]
    · have hnil : cur.events = [] := List.length_eq_zero.mp (Nat.eq_zero_of_not_pos h)
      simp [buildBatches, h, hnil]
  | cons e rest ih =>
    intro cur
    by_cases hfit : cur.totalSize + e.size ≤ maxSize
    · have h1 : cur.tryAdd maxSize e = some ⟨cur.events ++ [e]⟩ := by
        unfold EHBatch.tryAdd
        rw [if_pos hfit]
      have hsz : e.size ≤ maxSize := by omega
      obtain ⟨ihj, iha, ihf⟩ := ih ⟨cur.events ++ [e]⟩
      refine ⟨?_, ?_, ?_⟩ <;> simp only [buildBatches, h1]
      · rw [ihj, List.filter_cons_of_pos (by simpa using hsz)]
        simp
      · rw [iha, List.filter_cons_of_pos (by simpa using hsz)]
        simp
      · rw [ihf, List.filter_cons_of_neg (by simpa using hsz)]
    · have h1 : cur.tryAdd maxSize e = none := tryAdd_none.mpr hfit
      by_cases h2 : 0 < cur.count
      · by_cases hsz : e.size ≤ maxSize
        · have h3 : EHBatch.tryAdd maxSize ⟨[]⟩ e = some ⟨[] ++ [e]⟩ := by
            unfold EHBatch.tryAdd
            rw [if_pos (by simpa [EHBatch.totalSize] using hsz)]
          obtain ⟨ihj, iha, ihf⟩ := ih ⟨[] ++ [e]⟩
          refine ⟨?_, ?_, ?_⟩ <;> simp only [buildBatches, h1, if_pos h2, h3]
          · simp only [List.map_cons, List.flatten_cons]
            rw [ihj, List.filter_cons_of_pos (by simpa using hsz)]
            simp
          · rw [iha, List.filter_cons_of_pos (by simpa using hsz)]
            simp
          · rw [ihf, List.filter_cons_of_neg (by simpa using hsz)]
        · have h3 : EHBatch.tryAdd maxSize ⟨[]⟩ e = none :=
            tryAdd_none.mpr (by simpa [EHBatch.totalSize] using hsz)
          obtain ⟨ihj, iha, ihf⟩ := ih ⟨[]⟩
          refine ⟨?_, ?_, ?_⟩ <;> simp only [buildBatches, h1, if_pos h2, h3]
          · simp only [List.map_cons, List.flatten_cons]
            rw [ihj, List.filter_cons_of_neg (by simpa using hsz)]
            simp
          · rw [iha, List.filter_cons_of_neg (by simpa using hsz)]
          · rw [ihf, List.filter_cons_of_pos (by simpa using hsz)]
            simp
      · have hnil : cur.events = [] := List.length_eq_zero.mp (Nat.eq_zero_of_not_pos h2)
        have hsz : ¬ e.size ≤ maxSize := by
          intro hc
          exact hfit (by simpa [EHBatch.totalSize, hnil] using hc)
        obtain ⟨ihj, iha, ihf⟩ := ih cur
        refine ⟨?_, ?_, ?_⟩ <;> simp only [buildBatches, h1, if_neg h2]
        · rw [ihj, List.filter_cons_of_neg (by simpa using hsz)]
        · rw [iha, List.filter_cons_of_neg (by simpa using hsz)]
        · rw [ihf, List.filter_cons_of_pos (by simpa using hsz)]
          simp

/-- With a transport whose sends all succeed, every queued batch is transmitted. -/
lemma transmitFrom_all {sendOk : Nat → Bool} (h : ∀ i, sendOk i = true) :
    ∀ (bs : List EHBatch) (i : Nat), transmitFrom sendOk bs i = (bs, true) := by
  intro bs
  induction bs with
  | nil => intro i; rfl
  | cons b rest ih =>
    intro i
    simp [transmitFrom, h i, ih (i + 1)]

/-- When the first failing transport send is the j-th one and there are more than j
queued batches, exactly the first j batches are transmitted and the call aborts. -/
lemma transmitFrom_firstFail (sendOk : Nat → Bool) :
    ∀ (bs : List EHBatch) (i j : Nat), j < bs.length →
      (∀ k, k < j → sendOk (i + k) = true) → sendOk (i + j) = false →
      transmitFrom sendOk bs i = (bs.take j, false) := by
  intro bs
  induction bs with
  | nil =>
    intro i j hj
    simp at hj
  | cons b rest ih =>
    intro i j hj hok hfail
    cases j with
    | zero =>
      have hi : sendOk i = false := by simpa using hfail
      simp [transmitFrom, hi]
    | succ j' =>
      have hi : sendOk i = true := by simpa using hok 0 (Nat.succ_pos _)
      have hrec := ih (i + 1) j' (by simpa using hj)
        (fun k hk => by
          have := hok (k + 1) (by omega)
          rwa [show i + (k + 1) = i + 1 + k from by omega] at this)
        (by rwa [show i + (j' + 1) = i + 1 + j' from by omega] at hfail)
      simp [transmitFrom, hi, hrec]

/-- Sum of the sizes of a uniformly sized event list. -/
lemma sum_map_size_uniform (s : Nat) :
    ∀ l : List EHEvent, (∀ e ∈ l, e.size = s) → (l.map EHEvent.size).sum = l.length * s := by
  intro l
  induction l with
  | nil => intro _; simp
  | cons e rest ih =>
    intro h
    have he : e.size = s := h e (List.mem_cons_self _ _)
    have hr := ih fun x hx => h x (List.mem_cons_of_mem _ hx)
    simp [he, hr, Nat.succ_mul]
    omega

/-- Batching phase, uniform capacity: when every event has size `s` and the capacity
holds exactly `K` such events per batch, processing with a current batch holding at
most `K` uniformly sized events yields `⌈(current + new) / K⌉` queued batches. -/
lemma buildBatches_uniform {maxSize K s : Nat} (hK : 0 < K)
    (h1 : K * s ≤ maxSize) (h2 : maxSize < (K + 1) * s) :
    ∀ (evs : List EHEvent) (cur : EHBatch), (∀ e ∈ evs, e.size = s) →
      (∀ e ∈ cur.events, e.size = s) → cur.count ≤ K →
      (buildBatches maxSize evs cur).1.length = (cur.count + evs.length + K - 1) / K := by
  intro evs
  induction evs with
  | nil =>
    intro cur _ hcu hcK
    by_cases h : 0 < cur.count
    · have hnum : cur.count + 0 + K - 1 = (cur.count - 1) + K := by omega
      simp only [buildBatches, if_pos h, List.length_nil]
      rw [hnum, Nat.add_div_right _ hK, Nat.div_eq_of_lt (by omega)]
      simp
    · have hc0 : cur.count = 0 := by omega
      simp only [buildBatches, if_neg h, List.length_nil]
      rw [hc0, Nat.div_eq_of_lt (by omega)]
  | cons e rest ih =>
    intro cur hev hcu hcK
    have hes : e.size = s := hev e (List.mem_cons_self _ _)
    have hrest : ∀ x ∈ rest, x.size = s := fun x hx => hev x (List.mem_cons_of_mem _ hx)
    have htot : cur.totalSize = cur.count * s := sum_map_size_uniform s cur.events hcu
    have hspos : 0 < s := by
      rcases Nat.eq_zero_or_pos s with h | h
      · subst h
        simp at h2
      · exact h
    by_cases hclt : cur.count < K
    · have hfit : cur.totalSize + e.size ≤ maxSize := by
        rw [htot, hes]
        calc cur.count * s + s = (cur.count + 1) * s := by ring
          _ ≤ K * s := Nat.mul_le_mul_right s (by omega)
          _ ≤ maxSize := h1
      have hadd : cur.tryAdd maxSize e = some ⟨cur.events ++ [e]⟩ := by
        unfold EHBatch.tryAdd
        rw [if_pos hfit]
      have hcu' : ∀ x ∈ cur.events ++ [e], x.size = s := by
        intro x hx
        rcases List.mem_append.mp hx with hx | hx
        · exact hcu x hx
        · simpa using List.mem_singleton.mp hx ▸ hes
      have hclen : cur.events.length < K := hclt
      have hrec := ih ⟨cur.events ++ [e]⟩ hrest hcu'
        (by simp only [EHBatch.count, List.length_append, List.length_singleton]; omega)
      simp only [buildBatches, hadd, List.length_cons]
      rw [hrec]
      have hnum : EHBatch.count ⟨cur.events ++ [e]⟩ + rest.length + K - 1 =
          EHBatch.count cur + (rest.length + 1) + K - 1 := by
        simp only [EHBatch.count, List.length_append, List.length_singleton]
        omega
      rw [hnum]
    · have hceq : cur.count = K := by omega
      have hnofit : ¬ cur.totalSize + e.size ≤ maxSize := by
        rw [htot, hes, hceq]
        intro hcon
        have hx : (K + 1) * s = K * s + s := by ring
        rw [← hx] at hcon
        exact absurd h2 (not_lt.mpr hcon)
      have hadd : cur.tryAdd maxSize e = none := tryAdd_none.mpr hnofit
      have hpos : 0 < cur.count := by omega
      have hfit0 : EHBatch.totalSize ⟨[]⟩ + e.size ≤ maxSize := by
        simp only [EHBatch.totalSize, List.map_nil, List.sum_nil, Nat.zero_add, hes]
        calc s = 1 * s := (one_mul s).symm
          _ ≤ K * s := Nat.mul_le_mul_right s hK
          _ ≤ maxSize := h1
      have hadd0 : EHBatch.tryAdd maxSize ⟨[]⟩ e = some ⟨[] ++ [e]⟩ := by
        unfold EHBatch.tryAdd
        rw [if_pos hfit0]
      have hrec := ih ⟨[] ++ [e]⟩ hrest
        (by intro x hx; simpa using List.mem_singleton.mp (by simpa using hx) ▸ hes)
        (by simp only [EHBatch.count, List.nil_append, List.length_singleton]; omega)
      simp only [buildBatches, hadd, if_pos hpos, hadd0, List.length_cons]
      rw [hrec]
      have hA : EHBatch.count ⟨[] ++ [e]⟩ + rest.length + K - 1 = rest.length + K := by
        simp only [EHBatch.count, List.nil_append, List.length_singleton]
        omega
      have hB : EHBatch.count cur + (rest.length + 1) + K - 1 = rest.length + K + K := by
        rw [hceq]
        omega
      rw [hA, hB, Nat.add_div_right _ hK, Nat.add_div_right _ hK, Nat.add_div_right _ hK]

/-! ## C2 -/

/-- C2: with uniform event size `s` and a capacity that holds exactly `K < N` events
per batch, `sendBatch` on N events transmits exactly `⌈N / K⌉` batches whose
concatenation is the input in order, and returns N. -/
theorem C2_overflow_splits_batches (maxSize K s : Nat) (sendOk : Nat → Bool)
    (events : List EHEvent) (hsz : ∀ e ∈ events, e.size = s) (h1 : K * s ≤ maxSize)
    (h2 : maxSize < (K + 1) * s) (hK : 0 < K) (hKN : K < events.length)
    (hsend : ∀ i, sendOk i = true) :
    (EventHubsService.sendBatch maxSize sendOk events).transmitted.length =
      (events.length + K - 1) / K ∧
    ((EventHubsService.sendBatch maxSize sendOk events).transmitted.map
      EHBatch.events).flatten = events ∧
    (EventHubsService.sendBatch maxSize sendOk events).result =
      Except.ok events.length := by
  have hlen : ¬ events.length = 0 := by omega
  have hsle : s ≤ maxSize := by
    calc s = 1 * s := (one_mul s).symm
      _ ≤ K * s := Nat.mul_le_mul_right s hK
      _ ≤ maxSize := h1
  have hfil : events.filter (fun e => e.size ≤ maxSize) = events :=
    List.filter_eq_self.mpr fun e he => by
      simp only [hsz e he, decide_eq_true_eq]
      exact hsle
  obtain ⟨hjoin, hadd, -⟩ := buildBatches_spec maxSize events ⟨[]⟩
  have hcnt := buildBatches_uniform hK h1 h2 events ⟨[]⟩ hsz
    (by intro x hx; simp at hx) (by simp [EHBatch.count])
  have htrans := transmitFrom_all hsend (buildBatches maxSize events ⟨[]⟩).1 0
  refine ⟨?_, ?_, ?_⟩
  · simp only [EventHubsService.sendBatch, if_neg hlen, htrans]
    rw [hcnt]
    simp [EHBatch.count]
  · simp only [EventHubsService.sendBatch, if_neg hlen, htrans]
    rw [hjoin, hfil]
    rfl
  · simp only [EventHubsService.sendBatch, if_neg hlen, htrans]
    rw [hadd, hfil]
    simp

/-- Witness for C2: five unit-size events with a capacity of two per batch yield three
batches, the input in order, and a returned count of five. -/
theorem C2_overflow_splits_batches_witness :
    (EventHubsService.sendBatch 2 (fun _ => true)
        [⟨[], "1-0", 1⟩, ⟨[], "2-0", 1⟩, ⟨[], "3-0", 1⟩, ⟨[], "4-0", 1⟩,
         ⟨[], "5-0", 1⟩]).transmitted.length =
      ([⟨[], "1-0", 1⟩, ⟨[], "2-0", 1⟩, ⟨[], "3-0", 1⟩, ⟨[], "4-0", 1⟩,
        (⟨[], "5-0", 1⟩ : EHEvent)].length + 2 - 1) / 2 ∧
    ((EventHubsService.sendBatch 2 (fun _ => true)
        [⟨[], "1-0", 1⟩, ⟨[], "2-0", 1⟩, ⟨[], "3-0", 1⟩, ⟨[], "4-0", 1⟩,
         ⟨[], "5-0", 1⟩]).transmitted.map EHBatch.events).flatten =
      [⟨[], "1-0", 1⟩, ⟨[], "2-0", 1⟩, ⟨[], "3-0", 1⟩, ⟨[], "4-0", 1⟩,
       ⟨[], "5-0", 1⟩] ∧
    (EventHubsService.sendBatch 2 (fun _ => true)
        [⟨[], "1-0", 1⟩, ⟨[], "2-0", 1⟩, ⟨[], "3-0", 1⟩, ⟨[], "4-0", 1⟩,
         ⟨[], "5-0", 1⟩]).result =
      Except.ok ([⟨[], "1-0", 1⟩, ⟨[], "2-0", 1⟩, ⟨[], "3-0", 1⟩, ⟨[], "4-0", 1⟩,
        (⟨[], "5-0", 1⟩ : EHEvent)].length) :=
  C2_overflow_splits_batches 2 2 1 (fun _ => true)
    [⟨[], "1-0", 1⟩, ⟨[], "2-0", 1⟩, ⟨[], "3-0", 1⟩, ⟨[], "4-0", 1⟩, ⟨[], "5-0", 1⟩]
    (by decide) (by decide) (by decide) (by decide) (by decide) (fun _ => rfl)

/-! ## C3 -/

/-- C3: a single event too large for an empty batch is recorded as failed exactly once,
appears in no transmitted batch, does not abort the call, and all other (fitting)
events are still delivered and counted. -/
theorem C3_oversized_isolated (maxSize : Nat) (sendOk : Nat → Bool)
    (pre post : List EHEvent) (big : EHEvent)
    (hpre : ∀ e ∈ pre, e.size ≤ maxSize) (hpost : ∀ e ∈ post, e.size ≤ maxSize)
    (hbig : maxSize < big.size) (hsend : ∀ i, sendOk i = true) :
    (EventHubsService.sendBatch maxSize sendOk (pre ++ big :: post)).result =
      Except.ok (pre.length + post.length) ∧
    ((EventHubsService.sendBatch maxSize sendOk (pre ++ big :: post)).transmitted.map
      EHBatch.events).flatten = pre ++ post ∧
    (EventHubsService.sendBatch maxSize sendOk (pre ++ big :: post)).failedIds =
      [big.correlationId] := by
  have hlen : ¬ (pre ++ big :: post).length = 0 := by simp
  obtain ⟨hjoin, hadd, hfailed⟩ := buildBatches_spec maxSize (pre ++ big :: post) ⟨[]⟩
  have htrans := transmitFrom_all hsend (buildBatches maxSize (pre ++ big :: post) ⟨[]⟩).1 0
  have hfilpre : pre.filter (fun e => e.size ≤ maxSize) = pre :=
    List.filter_eq_self.mpr fun e he => by
      simp only [decide_eq_true_eq]
      exact hpre e he
  have hfilpost : post.filter (fun e => e.size ≤ maxSize) = post :=
    List.filter_eq_self.mpr fun e he => by
      simp only [decide_eq_true_eq]
      exact hpost e he
  have hfilter : (pre ++ big :: post).filter (fun e => e.size ≤ maxSize) = pre ++ post := by
    rw [List.filter_append, List.filter_cons]
    simp only [decide_eq_true_eq]
    rw [if_neg (by omega), hfilpre, hfilpost]
  have hnegpre : pre.filter (fun e => ¬ e.size ≤ maxSize) = [] :=
    List.filter_eq_nil_iff.mpr fun e he => by
      simp only [decide_not, Bool.not_eq_true, Bool.not_eq_false', decide_eq_true_eq]
      exact hpre e he
  have hnegpost : post.filter (fun e => ¬ e.size ≤ maxSize) = [] :=
    List.filter_eq_nil_iff.mpr fun e he => by
      simp only [decide_not, Bool.not_eq_true, Bool.not_eq_false', decide_eq_true_eq]
      exact hpost e he
  have hfilterneg : (pre ++ big :: post).filter (fun e => ¬ e.size ≤ maxSize) = [big] := by
    rw [List.filter_append, List.filter_cons]
    simp only [decide_eq_true_eq]
    rw [if_pos (by omega), hnegpre, hnegpost]
    rfl
  refine ⟨?_, ?_, ?_⟩
  · simp only [EventHubsService.sendBatch, if_neg hlen, htrans]
    rw [hadd, hfilter]
    simp
  · simp only [EventHubsService.sendBatch, if_neg hlen, htrans]
    rw [hjoin, hfilter]
    rfl
  · simp only [EventHubsService.sendBatch, if_neg hlen, htrans]
    rw [hfailed, hfilterneg]
    rfl

/-- Witness for C3: an event of size 5 between two unit-size events with capacity 1 is
skipped once while both neighbors are delivered. -/
theorem C3_oversized_isolated_witness :
    (EventHubsService.sendBatch 1 (fun _ => true)
        ([⟨[], "1-0", 1⟩] ++ ⟨[], "2-0", 5⟩ :: [⟨[], "3-0", 1⟩])).result =
      Except.ok ([(⟨[], "1-0", 1⟩ : EHEvent)].length + [(⟨[], "3-0", 1⟩ : EHEvent)].length) ∧
    ((EventHubsService.sendBatch 1 (fun _ => true)
        ([⟨[], "1-0", 1⟩] ++ ⟨[], "2-0", 5⟩ :: [⟨[], "3-0", 1⟩])).transmitted.map
      EHBatch.events).flatten = [⟨[], "1-0", 1⟩] ++ [⟨[], "3-0", 1⟩] ∧
    (EventHubsService.sendBatch 1 (fun _ => true)
        ([⟨[], "1-0", 1⟩] ++ ⟨[], "2-0", 5⟩ :: [⟨[], "3-0", 1⟩])).failedIds =
      [(⟨[], "2-0", 5⟩ : EHEvent).correlationId] :=
  C3_oversized_isolated 1 (fun _ => true) [⟨[], "1-0", 1⟩] [⟨[], "3-0", 1⟩]
    ⟨[], "2-0", 5⟩ (by decide) (by decide) (by decide) (fun _ => rfl)

/-! ## C5 (corrected) -/

/-- C5 counterexample: with two unit-capacity batches and a transport that fails on the
second send, one batch is transmitted before the failure, yet the call yields the
propagated error and no returned count at all — so the already-sent events cannot be
"counted as delivered in the call's returned count". -/
theorem C5_counterexample :
    (EventHubsService.sendBatch 1 (fun i => decide (i = 0))
        [⟨[], "1-0", 1⟩, ⟨[], "2-0", 1⟩]).transmitted = [⟨[⟨[], "1-0", 1⟩]⟩] ∧
    (EventHubsService.sendBatch 1 (fun i => decide (i = 0))
        [⟨[], "1-0", 1⟩, ⟨[], "2-0", 1⟩]).result = Except.error () :=
  ⟨rfl, rfl⟩

/-- C5 amended: a transport failure on the j-th queued batch transmits exactly the
first j batches, aborts the rest, and surfaces the error to the caller — the call then
returns no count (the events of the already-transmitted batches remain sent but are not
reported through a return value). -/
theorem C5_transport_failure_aborts (maxSize : Nat) (sendOk : Nat → Bool)
    (events : List EHEvent) (j : Nat) (hne : events ≠ [])
    (hj : j < (buildBatches maxSize events ⟨[]⟩).1.length)
    (hok : ∀ k, k < j → sendOk k = true) (hfail : sendOk j = false) :
    (EventHubsService.sendBatch maxSize sendOk events).transmitted =
      (buildBatches maxSize events ⟨[]⟩).1.take j ∧
    (EventHubsService.sendBatch maxSize sendOk events).result = Except.error () := by
  have hlen : ¬ events.length = 0 := fun hc => hne (List.length_eq_zero.mp hc)
  have ht := transmitFrom_firstFail sendOk (buildBatches maxSize events ⟨[]⟩).1 0 j hj
    (fun k hk => by simpa using hok k hk) (by simpa using hfail)
  constructor
  · simp only [EventHubsService.sendBatch, if_neg hlen, ht]
  · simp only [EventHubsService.sendBatch, if_neg hlen, ht]
    rfl

/-- Witness for the amended C5 at two unit-capacity batches with the second send
failing. -/
theorem C5_transport_failure_aborts_witness :
    (EventHubsService.sendBatch 1 (fun i => decide (i = 0))
        [⟨[], "a-0", 1⟩, ⟨[], "b-0", 1⟩]).transmitted =
      (buildBatches 1 [⟨[], "a-0", 1⟩, ⟨[], "b-0", 1⟩] ⟨[]⟩).1.take 1 ∧
    (EventHubsService.sendBatch 1 (fun i => decide (i = 0))
        [⟨[], "a-0", 1⟩, ⟨[], "b-0", 1⟩]).result = Except.error () :=
  C5_transport_failure_aborts 1 (fun i => decide (i = 0))
    [⟨[], "a-0", 1⟩, ⟨[], "b-0", 1⟩] 1 (by simp) (by decide)
    (fun k hk => by
      have : k = 0 := by omega
      subst this
      rfl)
    (by decide)

/-! ## C6 (corrected) -/

/-- A pending set of 101 entries, all idle for 5 ms, owned by a crashed consumer. -/
def pending101 : List PendingEntry :=
  (List.range 101).map fun i => ⟨Nat.repr i, "consumer-crashed", 5⟩

/-- C6 counterexample: with 101 pending entries all idle at least the threshold, the
101st entry is beyond the XPENDING scan window of 100 and is not reclaimed, refuting
"reassigns every pending entry whose idle duration is at least T". -/
theorem C6_counterexample :
    (⟨Nat.repr 100, "consumer-crashed", 5⟩ : PendingEntry) ∈ pending101 ∧
    5 ≤ (⟨Nat.repr 100, "consumer-crashed", 5⟩ : PendingEntry).idleMs ∧
    (⟨Nat.repr 100, "consumer-crashed", 5⟩ : PendingEntry).id ∉
      (RedisService.claimPendingMessages pending101 5).1 := by
  decide

/-- C6 amended: `claimPendingMessages` with threshold T never reclaims a pending entry
idle strictly less than T, and it reclaims every entry idle at least T among the first
100 entries of the pending set (the XPENDING scan window). -/
theorem C6_idle_threshold (pending : List PendingEntry) (T : Nat)
    (hnd : (pending.map PendingEntry.id).Nodup) :
    (∀ p ∈ pending, p.idleMs < T →
      p.id ∉ (RedisService.claimPendingMessages pending T).1) ∧
    (∀ p ∈ pending.take 100, T ≤ p.idleMs →
      p.id ∈ (RedisService.claimPendingMessages pending T).1) := by
  constructor
  · intro p hp hlt hin
    simp only [RedisService.claimPendingMessages] at hin
    split at hin
    · simp at hin
    · split at hin
      · simp at hin
      · simp only [List.mem_map] at hin
        obtain ⟨q, hq, hqid⟩ := hin
        rw [List.mem_filter] at hq
        obtain ⟨hq100, hqT⟩ := hq
        have hqmem : q ∈ pending := List.take_subset _ _ hq100
        have heq : q = p := List.inj_on_of_nodup_map hnd hqmem hp hqid
        rw [heq] at hqT
        simp only [decide_eq_true_eq] at hqT
        omega
  · intro p hp100 hT
    have hpfil : p ∈ (pending.take 100).filter fun q => T ≤ q.idleMs :=
      List.mem_filter.mpr ⟨hp100, by simpa using hT⟩
    have hid : p.id ∈ ((pending.take 100).filter fun q => T ≤ q.idleMs).map
        PendingEntry.id := List.mem_map_of_mem _ hpfil
    have hlen1 : ¬ (pending.take 100).length = 0 := by
      have := List.ne_nil_of_mem hp100
      simpa [List.length_eq_zero] using this
    have hlen2 : ¬ (((pending.take 100).filter fun q => T ≤ q.idleMs).map
        PendingEntry.id).length = 0 := by
      have := List.ne_nil_of_mem hid
      simpa [List.length_eq_zero] using this
    simp only [RedisService.claimPendingMessages, if_neg hlen1, if_neg hlen2]
    exact hid

/-- Witness for the amended C6: two pending entries around a threshold of 10 — the
fresh one is kept, the idle one is reclaimed. -/
theorem C6_idle_threshold_witness :
    (∀ p ∈ [⟨"1-0", "c1", 3⟩, (⟨"2-0", "c1", 10⟩ : PendingEntry)], p.idleMs < 10 →
      p.id ∉ (RedisService.claimPendingMessages
        [⟨"1-0", "c1", 3⟩, ⟨"2-0", "c1", 10⟩] 10).1) ∧
    (∀ p ∈ [⟨"1-0", "c1", 3⟩, (⟨"2-0", "c1", 10⟩ : PendingEntry)].take 100, 10 ≤ p.idleMs →
      p.id ∈ (RedisService.claimPendingMessages
        [⟨"1-0", "c1", 3⟩, ⟨"2-0", "c1", 10⟩] 10).1) :=
  C6_idle_threshold [⟨"1-0", "c1", 3⟩, ⟨"2-0", "c1", 10⟩] 10 (by decide)

end RedisToEventHubs
